import Mathlib

set_option autoImplicit false

/-!
Verification development for the ImgSmith batch image-converter extension.

The repository consists of three TypeScript variants of the same orchestration
code (src/src/utils.ts holds two documents, src/unnamed/part_000 a third):
selection filtering, per-file conversion pipelines built on the external
sharp codec, favicon-set generation, a best-effort file-replacement protocol,
and a concurrent batch runner with per-file failure capture.

This file shallowly embeds that orchestration logic:
* Node `path.posix` string helpers (`extname`, `basename`, `dirname`, `join`)
  are reimplemented over `String`/`List Char` for the non-degenerate paths the
  program manipulates.
* The external sharp engine is represented by a pipeline of operations
  (`Op`), mirroring exactly the operation chains the source constructs; the
  operations' effect on an abstract raster (`Image`) is modelled from the
  spec's black-box contract (resize fit-inside / cover-crop, flatten onto an
  opaque background, encode).
* The filesystem is a partial map from paths to decoded images, with
  injectable unlink/write fault sets so that delete/write failures can be
  expressed.
-/

namespace ImgSmith

/-! ## String constants used by the source -/

def slashStr : String := "/"
def dotSvg : String := ".svg"
def dotStr : String := "."
def dngStr : String := "dng"
def permMsg : String := "EPERM: operation not permitted"
def enoentMsg : String := "ENOENT: no such file or directory"
def eaccesMsg : String := "EACCES: permission denied"
def unsupportedHead : String := "Unsupported format: ."
def favDirName : String := "favicons"
def favHead : String := "favicon-"
def xSep : String := "x"
def pngExt : String := "png"
def icoFileName : String := "favicon.ico"

/-! ## Node path.posix model

These model Node's `path.posix` functions for the paths the program uses
(no trailing-slash directories beyond the root, ordinary file names). -/

/-- Node `path.basename(p)`: final path segment, trailing slashes stripped. -/
def basenameStr (p : String) : String :=
  let core := p.data.reverse.dropWhile (fun c => c = '/')
  String.mk (core.takeWhile (fun c => c ≠ '/')).reverse

/-- Node `path.dirname(p)`. -/
def dirname (p : String) : String :=
  let core := p.data.reverse.dropWhile (fun c => c = '/')
  let r := core.dropWhile (fun c => c ≠ '/')
  match r with
  | [] => if p.data.head? = some '/' then slashStr else dotStr
  | _ :: rest => if rest = [] then slashStr else String.mk rest.reverse

/-- Node `path.extname(p)`: from the last dot of the basename, unless that
dot is the basename's first character; `".."` has no extension. -/
def extnameStr (p : String) : String :=
  let b := (basenameStr p).data
  if b = ['.', '.'] then String.mk [] else
  let tailp := b.reverse.takeWhile (fun c => c ≠ '.')
  if tailp.length = b.length then String.mk []
  else
    let i := b.length - 1 - tailp.length
    if i = 0 then String.mk [] else String.mk (b.drop i)

/-- String suffix test (`String.prototype.endsWith` / Lean `endsWith`),
computed on the character lists so it reduces in the kernel. -/
def endsWithStr (s t : String) : Bool := t.data.isSuffixOf s.data

/-- Drop the last `n` characters. -/
def dropRightStr (s : String) (n : Nat) : String :=
  String.mk (s.data.take (s.data.length - n))

/-- Drop the first `n` characters (JS `slice(n)` for ASCII strings). -/
def dropStr (s : String) (n : Nat) : String := String.mk (s.data.drop n)

/-- Node `path.basename(p, path.extname(p))`, as used by the source's
`baseNameNoExt` / `base` computations. -/
def baseNameNoExt (p : String) : String :=
  let b := basenameStr p
  let e := extnameStr p
  if e ≠ String.mk [] ∧ endsWithStr b e ∧ b ≠ e then
    dropRightStr b e.data.length
  else b

/-- The prefix that Node `path.join(d, n)` puts before `n` for a simple
file name `n`. -/
def joinPre (d : String) : String :=
  if d = String.mk [] then String.mk []
  else if d = dotStr then String.mk []
  else if endsWithStr d slashStr then d
  else d ++ slashStr

/-- Node `path.join(d, n)` for a directory `d` and plain file name `n`. -/
def pathJoin (d n : String) : String := joinPre d ++ n

/-- JS `String.prototype.toLowerCase` restricted to ASCII. -/
def lowerStr (s : String) : String := String.mk (s.data.map Char.toLower)

/-! ## Format classifiers (src/src/utils.ts 8-20, 303-311;
src/unnamed/part_000 8-10, 63-70) -/

/-- `READABLE_FORMATS` of src/src/utils.ts (first document). -/
def READABLE_FORMATS : List String :=
  ["png", "jpg", "jpeg", "webp", "gif", "tiff", "bmp", "avif", "heic",
   "heif", "svg", "dng"]

/-- `INPUT_FORMATS` of the second document in src/src/utils.ts. -/
def INPUT_FORMATS : List String :=
  ["png", "jpg", "jpeg", "webp", "gif", "tiff", "bmp", "avif", "heic",
   "heif", "svg", "dng"]

/-- `INPUT_FORMATS` of src/unnamed/part_000 (the variant without dng). -/
def INPUT_FORMATS_V0 : List String :=
  ["png", "jpg", "jpeg", "webp", "gif", "tiff", "bmp", "avif", "heic",
   "heif", "svg"]

/-- `path.extname(p).slice(1).toLowerCase()`, the extension normalisation
every classifier in the source performs. -/
def extNoDotLower (p : String) : String := lowerStr (dropStr (extnameStr p) 1)

/-- `isImageFile` (src/src/utils.ts 13-16); the `vscode.Uri` argument is
represented by its `fsPath` string. -/
def isImageFile (p : String) : Bool :=
  READABLE_FORMATS.contains (extNoDotLower p)

/-- `isSupportedImage` (second document of src/src/utils.ts, lines 268-271). -/
def isSupportedImage (p : String) : Bool :=
  INPUT_FORMATS.contains (extNoDotLower p)

/-- `isSupportedImage` (src/unnamed/part_000 63-66): the deployed variant
whose supported set omits dng. -/
def isSupportedImageV0 (p : String) : Bool :=
  INPUT_FORMATS_V0.contains (extNoDotLower p)

/-- `isSvgPath` (part_000 68-70) / `isSvgInput` (utils.ts 37):
`path.extname(p).toLowerCase() === ".svg"`. -/
def isSvgPath (p : String) : Bool :=
  lowerStr (extnameStr p) == dotSvg

/-! ## Quality clamping (part_000 133-135, utils.ts 53, 330, 374) -/

/-- `clamp(n, min, max) = Math.max(min, Math.min(max, n))`
(src/unnamed/part_000 133-135); utils.ts line 53 inlines the same
expression. -/
def clampInt (n lo hi : Int) : Int := max lo (min hi n)

/-- The quality handed to the encoder at each call site:
`clamp(opts?.quality ?? default, 1, 100)`. The default is 80 in
`convertSingleFile`, 82 in `convertFile`, 90 in `generateFaviconSet`. -/
def usedQuality (qOpt : Option Int) (dflt : Int) : Int :=
  clampInt (qOpt.getD dflt) 1 100

/-! ## The sharp pipeline as data

The source builds a chain of sharp operations; we record the chain as a
list of `Op` values, constructed exactly as the source constructs it. -/

/-- Output encoders the source selects among (`.webp`, `.jpeg`, `.png`). -/
inductive EncFormat
  | webp
  | jpeg
  | png
  deriving DecidableEq, Repr

/-- Target formats: `type TargetFormat = "webp" | "jpg" | "png"`. -/
inductive TargetFormat
  | webp
  | jpg
  | png
  deriving DecidableEq, Repr

/-- The literal string interpolated into the output path for a target. -/
def targetExtStr : TargetFormat → String
  | TargetFormat.webp => "webp"
  | TargetFormat.jpg => "jpg"
  | TargetFormat.png => "png"

/-- The encoder a target format selects. -/
def encOf : TargetFormat → EncFormat
  | TargetFormat.webp => EncFormat.webp
  | TargetFormat.jpg => EncFormat.jpeg
  | TargetFormat.png => EncFormat.png

/-- Favicon output format choice: `format: "png" | "ico"`. -/
inductive FavFormat
  | png
  | ico
  deriving DecidableEq, Repr

/-- The literal string of a favicon format value. -/
def favFormatStr : FavFormat → String
  | FavFormat.png => "png"
  | FavFormat.ico => "ico"

structure RGB where
  r : Nat
  g : Nat
  b : Nat
  deriving DecidableEq, Repr

/-- `{ r: 255, g: 255, b: 255 }`, the flatten background the source uses. -/
def whiteBg : RGB := RGB.mk 255 255 255

/-- sharp resize `fit` modes the source requests. -/
inductive Fit
  | inside
  | cover
  deriving DecidableEq, Repr

/-- Arguments of a sharp `.resize({...})` call: `width`, `height`, `fit`,
`withoutEnlargement`, and whether `position: "center"` was passed. -/
structure ResizeSpec where
  width : Option Nat
  height : Option Nat
  fit : Fit
  withoutEnlargement : Bool
  centered : Bool
  deriving DecidableEq, Repr

/-- One sharp pipeline operation. -/
inductive Op
  | resize (spec : ResizeSpec)
  | encode (fmt : EncFormat) (quality : Int) (compressionLevel : Option Nat)
  | flatten (bg : RGB)
  deriving DecidableEq, Repr

/-- Abstract raster surface: dimensions, whether any transparency remains,
and which encoder last produced its bytes. -/
structure Image where
  width : Nat
  height : Nat
  alpha : Bool
  encodedAs : Option EncFormat
  deriving DecidableEq, Repr

/-- Round-half-up of a nonnegative rational, as the scale model's pixel
rounding. -/
def roundHalf (q : ℚ) : Nat := (Int.floor (q + 1 / 2)).toNat

/-- Modelled from the spec: the scale factor of a fit-inside resize
("scale down (never up) so the image fits within given bounds while
preserving aspect ratio", spec glossary and section 6). The underlying
codec engine is an out-of-scope collaborator; only the ratio law the spec
states is modelled. -/
def insideScale (w h : Nat) (mw mh : Option Nat) (noEnlarge : Bool) : ℚ :=
  let s0 : ℚ :=
    match mw, mh with
    | none, none => 1
    | some m, none => (m : ℚ) / (w : ℚ)
    | none, some m => (m : ℚ) / (h : ℚ)
    | some a, some b => min ((a : ℚ) / (w : ℚ)) ((b : ℚ) / (h : ℚ))
  if noEnlarge then min s0 1 else s0

/-- Modelled from the spec: effect of one pipeline operation on the
abstract surface (spec section 6's black-box `resize`/`encode`/`flatten`
capability; cover-crop yields exactly the requested square, flatten
composites onto an opaque background, JPEG carries no alpha channel). -/
def Op.apply (img : Image) : Op → Image
  | Op.resize spec =>
    match spec.fit with
    | Fit.cover =>
      Image.mk (spec.width.getD img.width) (spec.height.getD img.height)
        img.alpha img.encodedAs
    | Fit.inside =>
      let s := insideScale img.width img.height spec.width spec.height
        spec.withoutEnlargement
      Image.mk (roundHalf ((img.width : ℚ) * s))
        (roundHalf ((img.height : ℚ) * s)) img.alpha img.encodedAs
  | Op.encode f _ _ =>
    Image.mk img.width img.height
      (if f = EncFormat.jpeg then false else img.alpha) (some f)
  | Op.flatten _ => Image.mk img.width img.height false img.encodedAs

/-- Run a pipeline (sharp `.toBuffer()`). -/
def applyOps (ops : List Op) (img : Image) : Image := ops.foldl Op.apply img

/-! ## Pipeline construction (utils.ts 40-67, 318-345; part_000 101-124)

`convertSingleFile` and `convertFile` build identical chains except for the
default quality (80 vs 82); the shared builder takes the default as an
argument. -/

/-- `opts?: { maxWidth?; maxHeight?; quality? }`. -/
structure ConvOpts where
  maxWidth : Option Nat
  maxHeight : Option Nat
  quality : Option Int
  deriving DecidableEq, Repr

/-- JS truthiness of `opts?.maxWidth` for a numeric option: `0` and
absence are falsy. -/
def truthyN : Option Nat → Bool
  | some n => n != 0
  | none => false

/-- The operation chain built by the conversion functions: an optional
`resize({ fit: "inside", withoutEnlargement: true })` guarded by
`opts?.maxWidth || opts?.maxHeight`, then the target-format encode, then,
for a jpg target with an SVG source, `flatten` onto white. -/
def convertPipelineOps (inputPath : String) (target : TargetFormat)
    (opts : ConvOpts) (dfltQ : Int) : List Op :=
  let resizePart : List Op :=
    if truthyN opts.maxWidth || truthyN opts.maxHeight then
      [Op.resize (ResizeSpec.mk opts.maxWidth opts.maxHeight Fit.inside true false)]
    else []
  let q : Int := usedQuality opts.quality dfltQ
  let encodePart : List Op :=
    match target with
    | TargetFormat.webp => [Op.encode EncFormat.webp q none]
    | TargetFormat.jpg =>
      [Op.encode EncFormat.jpeg q none] ++
        (if isSvgPath inputPath then [Op.flatten whiteBg] else [])
    | TargetFormat.png => [Op.encode EncFormat.png q none]
  resizePart ++ encodePart

/-! ## Filesystem model

A partial map from paths to decoded surfaces, plus injectable fault sets
so locked/permission-denied unlinks and failing writes are expressible. -/

structure FS where
  files : String → Option Image
  unlinkFaults : String → Bool
  writeFaults : String → Bool

/-- Current content at a path. -/
def FS.readAt (fs : FS) (p : String) : Option Image := fs.files p

/-- `fs.unlink` / `fs.unlinkSync`: fails on a fault (locked, permission
denied) or a missing file; otherwise removes the entry. -/
def FS.unlink (fs : FS) (p : String) : Except String FS :=
  if fs.unlinkFaults p then Except.error permMsg
  else
    match fs.files p with
    | some _ =>
      Except.ok (FS.mk (fun q => if q = p then none else fs.files q)
        fs.unlinkFaults fs.writeFaults)
    | none => Except.error enoentMsg

/-- `fs.writeFile` / `fs.writeFileSync`: create or truncate; fails on a
write fault. -/
def FS.writeFile (fs : FS) (p : String) (d : Image) : Except String FS :=
  if fs.writeFaults p then Except.error eaccesMsg
  else
    Except.ok (FS.mk (fun q => if q = p then some d else fs.files q)
      fs.unlinkFaults fs.writeFaults)

/-- `sharp(filePath)` + `.toBuffer()` on the source side: decoding succeeds
exactly when the path holds decodable image content (extension-blind, as
sharp sniffs content). -/
def FS.decode (fs : FS) (p : String) : Except String Image :=
  match fs.files p with
  | some i => Except.ok i
  | none => Except.error enoentMsg

/-! ## File replacement protocol (utils.ts 75-80, 350-353; part_000 128-130)

`try { unlink(inputPath) } catch {}` followed by an unconditional write. -/

/-- The delete-then-write replacement step: a failed delete is swallowed,
then the encoded output is written. -/
def replaceOriginal (fs : FS) (inputPath outPath : String) (data : Image) :
    Except String FS :=
  let fs1 :=
    match fs.unlink inputPath with
    | Except.ok f => f
    | Except.error _ => fs
  fs1.writeFile outPath data

/-! ## Conversion operations -/

/-- Conversion errors; `message` mirrors the JS `Error` messages the batch
runner stringifies. -/
inductive ConvError
  | unsupportedFormat (ext : String)
  | decodeError (msg : String)
  | writeError (msg : String)
  deriving DecidableEq, Repr

def ConvError.message : ConvError → String
  | ConvError.unsupportedFormat e => unsupportedHead ++ e
  | ConvError.decodeError m => m
  | ConvError.writeError m => m

/-- `path.join(dir, base + "." + target)`, the output path both conversion
functions compute (utils.ts 69, 315; part_000 98). -/
def outputPath (p : String) (target : TargetFormat) : String :=
  pathJoin (dirname p) (baseNameNoExt p ++ dotStr ++ targetExtStr target)

/-- `convertSingleFile` (src/src/utils.ts 26-83): no format validation,
default quality 80; decode, run the pipeline, replace the original,
return the output path. -/
def convertSingleFile (fs : FS) (file : String) (target : TargetFormat)
    (opts : ConvOpts) : Except ConvError (FS × String) :=
  let inputPath := file
  let ops := convertPipelineOps inputPath target opts 80
  let outPath := outputPath inputPath target
  match fs.decode inputPath with
  | Except.error m => Except.error (ConvError.decodeError m)
  | Except.ok img =>
    match replaceOriginal fs inputPath outPath (applyOps ops img) with
    | Except.error m => Except.error (ConvError.writeError m)
    | Except.ok fs2 => Except.ok (fs2, outPath)

/-- `convertFile` (second document of src/src/utils.ts 303-354;
src/unnamed/part_000 88-131): validates the extension against
`INPUT_FORMATS` first, default quality 82, then the same body. -/
def convertFile (fs : FS) (filePath : String) (target : TargetFormat)
    (opts : ConvOpts) : Except ConvError (FS × String) :=
  let inputExt := extNoDotLower filePath
  if (INPUT_FORMATS.contains inputExt) = false then
    Except.error (ConvError.unsupportedFormat inputExt)
  else
    let ops := convertPipelineOps filePath target opts 82
    let outPath := outputPath filePath target
    match fs.decode filePath with
    | Except.error m => Except.error (ConvError.decodeError m)
    | Except.ok img =>
      match replaceOriginal fs filePath outPath (applyOps ops img) with
      | Except.error m => Except.error (ConvError.writeError m)
      | Except.ok fs2 => Except.ok (fs2, outPath)

/-! ## Favicon set generation (src/src/utils.ts 356-424) -/

structure FaviconOpts where
  sizes : List Nat
  format : FavFormat
  quality : Option Int
  deriving DecidableEq, Repr

/-- `favicon-${size}x${size}.${opts.format === "ico" ? "png" : opts.format}`. -/
def faviconFileName (format : FavFormat) (size : Nat) : String :=
  favHead ++ toString size ++ xSep ++ toString size ++ dotStr ++
    (if format = FavFormat.ico then pngExt else favFormatStr format)

/-- The per-size pipeline: cover-crop resize to `size`×`size` centered,
PNG encode at compression level 9, then flatten-on-white only when the
source is SVG and the requested format is not png (utils.ts 378-400). -/
def faviconSizeOps (filePath : String) (format : FavFormat) (q : Int)
    (size : Nat) : List Op :=
  [Op.resize (ResizeSpec.mk (some size) (some size) Fit.cover false true),
   Op.encode EncFormat.png q (some 9)] ++
    (if isSvgPath filePath && !(format = FavFormat.png : Bool) then
      [Op.flatten whiteBg]
    else [])

/-- The extra 16×16 `favicon.ico` pipeline: cover-crop to 16×16, PNG
encode, and flatten-on-white whenever the source is SVG, regardless of the
requested format (utils.ts 413-419). -/
def faviconIcoOps (filePath : String) (q : Int) : List Op :=
  [Op.resize (ResizeSpec.mk (some 16) (some 16) Fit.cover false true),
   Op.encode EncFormat.png q (some 9)] ++
    (if isSvgPath filePath then [Op.flatten whiteBg] else [])

/-- The `for (const size of opts.sizes)` loop body: decode, run the
per-size pipeline, write `favicons/favicon-{s}x{s}.png`. -/
def writeSizes (fs : FS) (faviconDir filePath : String) (format : FavFormat)
    (q : Int) : List Nat → Except ConvError FS
  | [] => Except.ok fs
  | s :: rest =>
    match fs.decode filePath with
    | Except.error m => Except.error (ConvError.decodeError m)
    | Except.ok img =>
      match fs.writeFile (pathJoin faviconDir (faviconFileName format s))
          (applyOps (faviconSizeOps filePath format q s) img) with
      | Except.error m => Except.error (ConvError.writeError m)
      | Except.ok fs1 => writeSizes fs1 faviconDir filePath format q rest

/-- `generateFaviconSet` (src/src/utils.ts 356-424): validate the
extension, write one `favicon-{s}x{s}.png` per requested size into the
`favicons` subfolder, then, when 16 is among the sizes, additionally write
`favicons/favicon.ico` (PNG bytes). The `favicons` directory creation is
idempotent and not otherwise modelled; this pipeline never unlinks. -/
def generateFaviconSet (fs : FS) (filePath : String) (opts : FaviconOpts) :
    Except ConvError FS :=
  let inputExt := extNoDotLower filePath
  if (INPUT_FORMATS.contains inputExt) = false then
    Except.error (ConvError.unsupportedFormat inputExt)
  else
    let faviconDir := pathJoin (dirname filePath) favDirName
    let q := usedQuality opts.quality 90
    match writeSizes fs faviconDir filePath opts.format q opts.sizes with
    | Except.error e => Except.error e
    | Except.ok fs1 =>
      if opts.sizes.contains 16 then
        match fs1.decode filePath with
        | Except.error m => Except.error (ConvError.decodeError m)
        | Except.ok img =>
          match fs1.writeFile (pathJoin faviconDir icoFileName)
              (applyOps (faviconIcoOps filePath q) img) with
          | Except.error m => Except.error (ConvError.writeError m)
          | Except.ok fs2 => Except.ok fs2
      else Except.ok fs1

/-! ## Batch runner (src/src/utils.ts 99-127; part_000 72-86)

Concurrency note: the source launches all per-file promises and waits for
all of them; each promise only appends its own result, so the functional
content — which entries the report holds — is captured by a sequential
fold. The per-file operation is abstracted as `runner`. -/

/-- `handleBatch`: run `runner` over every file, collecting output paths of
successes and `(path, message)` entries for failures. -/
def handleBatch (files : List String)
    (runner : String → Except String String) :
    List String × List (String × String) :=
  files.foldl
    (fun acc f =>
      match runner f with
      | Except.ok out => (acc.1 ++ [out], acc.2)
      | Except.error e => (acc.1, acc.2 ++ [(f, e)]))
    ([], [])

/-- `batch` (part_000 72-86): the variant that records only failures and
derives the success count as `files.length - failures.length`. -/
def batchFailures (files : List String)
    (runner : String → Except String Unit) : List (String × String) :=
  files.foldl
    (fun acc f =>
      match runner f with
      | Except.ok _ => acc
      | Except.error e => acc ++ [(f, e)])
    []

/-! ## Concrete fixtures used by witnesses -/

def pUpperWitness : String := "/a/PHOTO.PnG"
def pTxtWitness : String := "/a/readme.txt"
def pLogoSvg : String := "/a/logo.svg"
def pPhoto : String := "/pics/photo.png"
def pPhotoOut : String := "/pics/photo.webp"
def optsNone : ConvOpts := ConvOpts.mk none none none
def imgAlpha : Image := Image.mk 64 64 true none
def imgPhoto : Image := Image.mk 100 50 true none

/-- A filesystem holding only the photo, with no faults. -/
def fsPhoto : FS :=
  FS.mk (fun q => if q = pPhoto then some imgPhoto else none)
    (fun _ => false) (fun _ => false)

/-- Same filesystem but the source file is locked against deletion. -/
def fsLocked : FS :=
  FS.mk (fun q => if q = pPhoto then some imgPhoto else none)
    (fun q => q = pPhoto) (fun _ => false)

/-- Same filesystem but the output path rejects writes. -/
def fsWriteFault : FS :=
  FS.mk (fun q => if q = pPhoto then some imgPhoto else none)
    (fun _ => false) (fun q => q = pPhotoOut)

/-- Decodable image content stored under a `.txt` name (e.g. a renamed
PNG): content sniffing decodes it even though the extension is
unsupported. -/
def fsTxt : FS :=
  FS.mk (fun q => if q = pTxtWitness then some imgPhoto else none)
    (fun _ => false) (fun _ => false)

def pTxtOut : String := "/a/readme.webp"
def txtErrMsg : String := "Unsupported format: .txt"

/-- Concrete batch fixtures. -/
def filesW : List String := ["/a/one.png", "/pics/photo.png", "/a/logo.svg"]

def runnerW : String → Except String String := fun f =>
  if f = pPhoto then Except.error eaccesMsg else Except.ok (f ++ dotStr)

def optsBoxW30 : ConvOpts := ConvOpts.mk (some 30) none none

/-- A transparent SVG logo on a healthy filesystem. -/
def fsSvg : FS :=
  FS.mk (fun q => if q = pLogoSvg then some imgAlpha else none)
    (fun _ => false) (fun _ => false)

/-! ## Helper lemmas -/

/-- Every branch of `clampInt` lands in `[lo, hi]` when `lo ≤ hi`. -/
lemma clampInt_mem (n : Int) : 1 ≤ clampInt n 1 100 ∧ clampInt n 1 100 ≤ 100 := by
  unfold clampInt
  constructor
  · exact le_max_left 1 (min 100 n)
  · exact max_le (by norm_num) (min_le_left 100 n)

lemma clampInt_of_mem (n : Int) (h1 : 1 ≤ n) (h2 : n ≤ 100) :
    clampInt n 1 100 = n := by
  unfold clampInt
  rw [min_eq_right h2, max_eq_right h1]

/-- A resize-free pipeline does not change dimensions. -/
lemma applyOps_dims_of_no_resize (ops : List Op) (img : Image)
    (h : ∀ spec, Op.resize spec ∉ ops) :
    (applyOps ops img).width = img.width ∧
    (applyOps ops img).height = img.height := by
  induction ops generalizing img with
  | nil => exact ⟨rfl, rfl⟩
  | cons op rest ih =>
    have hrest : ∀ spec, Op.resize spec ∉ rest := by
      intro spec hs
      exact h spec (List.mem_cons_of_mem _ hs)
    have hstep : (Op.apply img op).width = img.width ∧
        (Op.apply img op).height = img.height := by
      cases op with
      | resize spec => exact absurd (List.mem_cons_self _ _) (fun c => h spec c)
      | encode f q c => exact ⟨rfl, rfl⟩
      | flatten bg => exact ⟨rfl, rfl⟩
    have := ih (Op.apply img op) hrest
    refine ⟨?_, ?_⟩
    · calc (applyOps (op :: rest) img).width
          = (applyOps rest (Op.apply img op)).width := rfl
        _ = (Op.apply img op).width := this.1
        _ = img.width := hstep.1
    · calc (applyOps (op :: rest) img).height
          = (applyOps rest (Op.apply img op)).height := rfl
        _ = (Op.apply img op).height := this.2
        _ = img.height := hstep.2

/-- Resizing never alters the alpha flag. -/
lemma apply_resize_alpha (img : Image) (spec : ResizeSpec) :
    (Op.apply img (Op.resize spec)).alpha = img.alpha := by
  cases spec with
  | mk w h fit noE c => cases fit <;> rfl

/-- Round-half-up respects an integer upper bound. -/
lemma roundHalf_le_nat (q : ℚ) (n : Nat) (h : q ≤ (n : ℚ)) :
    roundHalf q ≤ n := by
  unfold roundHalf
  have h3 : Int.floor (q + 1 / 2) < (n : ℤ) + 1 := by
    rw [Int.floor_lt]
    push_cast
    linarith
  exact Int.toNat_le.mpr (by omega)

/-- A scale below `m / w` keeps `w * s` below `m`. -/
lemma mul_le_of_le_div (w m : Nat) (s : ℚ)
    (hs : s ≤ (m : ℚ) / (w : ℚ)) : (w : ℚ) * s ≤ (m : ℚ) := by
  rcases Nat.eq_zero_or_pos w with hw | hw
  · subst hw
    simp
  · have hwq : (0 : ℚ) < (w : ℚ) := by exact_mod_cast hw
    rw [le_div_iff₀ hwq] at hs
    linarith

lemma insideScale_nonneg (w h : Nat) (mw mh : Option Nat) :
    0 ≤ insideScale w h mw mh true := by
  unfold insideScale
  have h1 : (0 : ℚ) ≤ 1 := by norm_num
  have hdw : ∀ a : Nat, (0 : ℚ) ≤ (a : ℚ) / (w : ℚ) := fun a =>
    div_nonneg (Nat.cast_nonneg a) (Nat.cast_nonneg w)
  have hdh : ∀ b : Nat, (0 : ℚ) ≤ (b : ℚ) / (h : ℚ) := fun b =>
    div_nonneg (Nat.cast_nonneg b) (Nat.cast_nonneg h)
  rcases mw with _ | a <;> rcases mh with _ | b
  · exact le_min h1 h1
  · exact le_min (hdh b) h1
  · exact le_min (hdw a) h1
  · exact le_min (le_min (hdw a) (hdh b)) h1

lemma insideScale_le_one (w h : Nat) (mw mh : Option Nat) :
    insideScale w h mw mh true ≤ 1 := by
  unfold insideScale
  rcases mw with _ | a <;> rcases mh with _ | b <;>
    exact min_le_right _ _

lemma insideScale_le_width (w h : Nat) (a : Nat) (mh : Option Nat) :
    insideScale w h (some a) mh true ≤ (a : ℚ) / (w : ℚ) := by
  unfold insideScale
  rcases mh with _ | b
  · exact min_le_left _ _
  · exact le_trans (min_le_left _ _) (min_le_left _ _)

lemma insideScale_le_height (w h : Nat) (mw : Option Nat) (b : Nat) :
    insideScale w h mw (some b) true ≤ (b : ℚ) / (h : ℚ) := by
  unfold insideScale
  rcases mw with _ | a
  · exact min_le_left _ _
  · exact le_trans (min_le_left _ _) (min_le_right _ _)

/-! ## C9: format classification -/

/-- C9: for every path, `isImageFile` returns true iff the lowercased
extension without its leading dot lies in the fixed twelve-element set
(and the second in-repo variant `isSupportedImage` agrees with it), while
the deployed part_000 variant `isSupportedImageV0` recognises the same set
with dng omitted; all three are pure functions of the path string. -/
theorem classifier_extension_set (p : String) :
    (isImageFile p = true ↔
      extNoDotLower p ∈
        ["png", "jpg", "jpeg", "webp", "gif", "tiff", "bmp", "avif",
         "heic", "heif", "svg", "dng"]) ∧
    (isSupportedImage p = isImageFile p) ∧
    (isSupportedImageV0 p = true ↔
      extNoDotLower p ∈
        ["png", "jpg", "jpeg", "webp", "gif", "tiff", "bmp", "avif",
         "heic", "heif", "svg"]) ∧
    INPUT_FORMATS_V0 = READABLE_FORMATS.filter (fun s => s != dngStr) := by
  refine ⟨?_, rfl, ?_, by decide⟩
  · unfold isImageFile READABLE_FORMATS
    simp [List.contains]
  · unfold isSupportedImageV0 INPUT_FORMATS_V0
    simp [List.contains]

/-- C9 witness: the classification at concrete mixed-case paths. -/
theorem classifier_extension_set_witness :
    isImageFile pUpperWitness = true ∧ isImageFile pTxtWitness = false := by
  constructor
  · exact (classifier_extension_set pUpperWitness).1.mpr (by decide)
  · have h := (classifier_extension_set pTxtWitness).1
    by_contra hc
    have : isImageFile pTxtWitness = true := by
      revert hc
      cases isImageFile pTxtWitness <;> simp
    exact absurd (h.mp this) (by decide)

/-! ## C8: quality clamping -/

/-- C8: the quality handed to every encoder is the requested quality
clamped into [1,100]; quality 0 becomes 1, quality 150 becomes 100, an
in-range quality passes through unchanged, and an absent quality falls
back to the call site's default constant (80, 82 and 90 respectively);
the clamped value is exactly the quality carried by the encode operation
of the conversion pipeline and of the favicon per-size pipeline. -/
theorem encoder_quality_clamped (n : Int) (qOpt : Option Int) (d : Int)
    (p : String) (t : TargetFormat) (opts : ConvOpts) (fmt : FavFormat)
    (s : Nat) :
    (1 ≤ usedQuality qOpt d ∧ usedQuality qOpt d ≤ 100) ∧
    usedQuality (some 0) d = 1 ∧
    usedQuality (some 150) d = 100 ∧
    (1 ≤ n → n ≤ 100 → usedQuality (some n) d = n) ∧
    usedQuality none d = clampInt d 1 100 ∧
    usedQuality none 80 = 80 ∧
    usedQuality none 82 = 82 ∧
    usedQuality none 90 = 90 ∧
    Op.encode (encOf t) (usedQuality opts.quality d) none ∈
      convertPipelineOps p t opts d ∧
    Op.encode EncFormat.png (usedQuality qOpt 90) (some 9) ∈
      faviconSizeOps p fmt (usedQuality qOpt 90) s := by
  refine ⟨clampInt_mem _, rfl, rfl, ?_, rfl, by decide, by decide,
    by decide, ?_, ?_⟩
  · intro h1 h2
    exact clampInt_of_mem n h1 h2
  · unfold convertPipelineOps
    cases t <;>
      cases h : truthyN opts.maxWidth || truthyN opts.maxHeight <;>
      simp [h, encOf]
  · unfold faviconSizeOps
    simp

/-- C8 witness: concrete clamping at quality 0, 150, and absent. -/
theorem encoder_quality_clamped_witness :
    usedQuality (some 0) 80 = 1 ∧ usedQuality (some 150) 80 = 100 ∧
    usedQuality (some 55) 80 = 55 ∧ usedQuality none 80 = 80 := by
  have h := encoder_quality_clamped 55 (some 0) 80 pUpperWitness
    TargetFormat.webp (ConvOpts.mk none none none) FavFormat.png 16
  exact ⟨h.2.1, h.2.2.1, h.2.2.2.1 (by decide) (by decide), h.2.2.2.2.2.1⟩

/-! ## C10: favicon flatten asymmetry -/

/-- C10: in favicon generation the extra 16×16 favicon.ico pass flattens
onto white exactly when the source is SVG — regardless of the requested
format — whereas the per-size loop flattens exactly when the source is SVG
and the requested format is not png. -/
theorem favicon_flatten_asymmetry (p : String) (q : Int) (s : Nat)
    (fmt : FavFormat) :
    (Op.flatten whiteBg ∈ faviconSizeOps p fmt q s ↔
      (isSvgPath p = true ∧ fmt ≠ FavFormat.png)) ∧
    (Op.flatten whiteBg ∈ faviconIcoOps p q ↔ isSvgPath p = true) := by
  constructor
  · unfold faviconSizeOps
    cases hsvg : isSvgPath p <;> cases fmt <;> simp [hsvg]
  · unfold faviconIcoOps
    cases hsvg : isSvgPath p <;> simp [hsvg]

/-- C10 witness: for an SVG source with requested format png, the ico pass
flattens while the per-size pass does not. -/
theorem favicon_flatten_asymmetry_witness :
    Op.flatten whiteBg ∈ faviconIcoOps pLogoSvg 90 ∧
    Op.flatten whiteBg ∉ faviconSizeOps pLogoSvg FavFormat.png 90 16 := by
  constructor
  · exact (favicon_flatten_asymmetry pLogoSvg 90 16 FavFormat.png).2.mpr
      (by decide)
  · intro hmem
    have h := (favicon_flatten_asymmetry pLogoSvg 90 16 FavFormat.png).1.mp
      hmem
    exact h.2 rfl

/-! ## C5: SVG flatten on jpg targets only -/

/-- C5: converting an SVG source to jpg inserts a flatten onto opaque
white into the pipeline and the produced surface is opaque; converting the
same source to png inserts no flatten and the alpha channel of the source
is preserved. Quantified over the call-site default quality so it covers
both `convertSingleFile` (80) and `convertFile` (82). -/
theorem svg_jpg_flatten (p : String) (opts : ConvOpts) (img : Image)
    (d : Int) (hsvg : isSvgPath p = true) :
    Op.flatten whiteBg ∈ convertPipelineOps p TargetFormat.jpg opts d ∧
    (applyOps (convertPipelineOps p TargetFormat.jpg opts d) img).alpha =
      false ∧
    (∀ bg, Op.flatten bg ∉ convertPipelineOps p TargetFormat.png opts d) ∧
    (applyOps (convertPipelineOps p TargetFormat.png opts d) img).alpha =
      img.alpha := by
  cases h : truthyN opts.maxWidth || truthyN opts.maxHeight with
  | false =>
    have hjpg : convertPipelineOps p TargetFormat.jpg opts d =
        [Op.encode EncFormat.jpeg (usedQuality opts.quality d) none,
         Op.flatten whiteBg] := by
      simp [convertPipelineOps, h, hsvg]
    have hpng : convertPipelineOps p TargetFormat.png opts d =
        [Op.encode EncFormat.png (usedQuality opts.quality d) none] := by
      simp [convertPipelineOps, h]
    refine ⟨?_, ?_, ?_, ?_⟩
    · rw [hjpg]; simp
    · rw [hjpg]; simp [applyOps, Op.apply]
    · intro bg; rw [hpng]; simp
    · rw [hpng]; simp [applyOps, Op.apply]
  | true =>
    have hjpg : convertPipelineOps p TargetFormat.jpg opts d =
        [Op.resize (ResizeSpec.mk opts.maxWidth opts.maxHeight Fit.inside
           true false),
         Op.encode EncFormat.jpeg (usedQuality opts.quality d) none,
         Op.flatten whiteBg] := by
      simp [convertPipelineOps, h, hsvg]
    have hpng : convertPipelineOps p TargetFormat.png opts d =
        [Op.resize (ResizeSpec.mk opts.maxWidth opts.maxHeight Fit.inside
           true false),
         Op.encode EncFormat.png (usedQuality opts.quality d) none] := by
      simp [convertPipelineOps, h]
    refine ⟨?_, ?_, ?_, ?_⟩
    · rw [hjpg]; simp
    · rw [hjpg]; simp [applyOps, Op.apply]
    · intro bg; rw [hpng]; simp
    · rw [hpng]; simp [applyOps, Op.apply]

/-- C5 witness: a transparent 64×64 SVG surface converted to jpg is
opaque; converted to png it keeps its transparency. -/
theorem svg_jpg_flatten_witness :
    Op.flatten whiteBg ∈
      convertPipelineOps pLogoSvg TargetFormat.jpg optsNone 82 ∧
    (applyOps (convertPipelineOps pLogoSvg TargetFormat.jpg optsNone 82)
      imgAlpha).alpha = false ∧
    (applyOps (convertPipelineOps pLogoSvg TargetFormat.png optsNone 82)
      imgAlpha).alpha = true := by
  have h := svg_jpg_flatten pLogoSvg optsNone imgAlpha 82 (by decide)
  exact ⟨h.1, h.2.1, h.2.2.2⟩

/-! ## C2: file replacement protocol -/

/-- C2: in the replacement step, a failing delete of the source is
swallowed (the write is attempted on the unchanged filesystem), the write
is attempted unconditionally after a successful delete as well, and the
outcome of the whole step is decided by the write alone — it fails, with
the write error propagating, iff the output path has a write fault. -/
theorem replace_swallows_delete (fs : FS) (i o : String) (d : Image) :
    ((fs.unlink i).isOk = false →
      replaceOriginal fs i o d = fs.writeFile o d) ∧
    (∀ fs1, fs.unlink i = Except.ok fs1 →
      replaceOriginal fs i o d = fs1.writeFile o d) ∧
    ((replaceOriginal fs i o d).isOk = true ↔ fs.writeFaults o = false) ∧
    (fs.writeFaults o = true →
      replaceOriginal fs i o d = Except.error eaccesMsg) := by
  have hfaults : ∀ fs1, fs.unlink i = Except.ok fs1 →
      fs1.writeFaults = fs.writeFaults := by
    intro fs1 h
    unfold FS.unlink at h
    by_cases hf : fs.unlinkFaults i
    · simp [hf] at h
    · simp [hf] at h
      rcases hx : fs.files i with _ | img
      · simp [hx] at h
      · simp [hx] at h
        rw [← h]

  have hkey : ∀ g : FS, g.writeFaults = fs.writeFaults →
      (((g.writeFile o d).isOk = true ↔ fs.writeFaults o = false) ∧
        (fs.writeFaults o = true → g.writeFile o d = Except.error eaccesMsg)) := by
    intro g hg
    unfold FS.writeFile
    rw [hg]
    by_cases hw : fs.writeFaults o <;> simp [hw, Except.isOk, Except.toBool]
  refine ⟨?_, ?_, ?_, ?_⟩
  · intro h
    unfold replaceOriginal
    rcases hu : fs.unlink i with e | fs1
    · rfl
    · rw [hu] at h
      simp [Except.isOk, Except.toBool] at h
  · intro fs1 h
    unfold replaceOriginal
    rw [h]
  · unfold replaceOriginal
    rcases hu : fs.unlink i with e | fs1
    · exact (hkey fs rfl).1
    · exact (hkey fs1 (hfaults fs1 hu)).1
  · intro hw
    unfold replaceOriginal
    rcases hu : fs.unlink i with e | fs1
    · exact (hkey fs rfl).2 hw
    · exact (hkey fs1 (hfaults fs1 hu)).2 hw

/-! ## C6: unsupported-format validation (corrected)

The claim holds for the `convertFile` variant (and for
`generateFaviconSet`), which check the extension before touching the
filesystem; the `convertSingleFile` variant of src/src/utils.ts performs
no such validation and relies on its caller's selection-time filtering. -/

/-- C6 counterexample: `convertSingleFile` applied to decodable content
stored under the unsupported extension txt does not fail with an
UnsupportedFormat error before I/O — it completes the whole
decode/delete/write cycle successfully and produces `/a/readme.webp`. -/
theorem unsupported_validation_counterexample :
    INPUT_FORMATS.contains (extNoDotLower pTxtWitness) = false ∧
    READABLE_FORMATS.contains (extNoDotLower pTxtWitness) = false ∧
    (convertSingleFile fsTxt pTxtWitness TargetFormat.webp optsNone).isOk
      = true ∧
    ((convertSingleFile fsTxt pTxtWitness TargetFormat.webp
      optsNone).toOption.map Prod.snd) = some pTxtOut := by
  refine ⟨by decide, by decide, ?_, ?_⟩ <;> decide

/-- C6 amended: for every input whose extension is not in the supported
set, the `convertFile` variant (and the favicon generator) fails with an
error naming the extension, and the failure is produced before any
filesystem access — the result is the same for every filesystem state;
the `convertSingleFile` variant performs no such validation. -/
theorem convertFile_unsupported_before_io (fs fs2 : FS) (p : String)
    (t : TargetFormat) (opts : ConvOpts) (fopts : FaviconOpts)
    (h : INPUT_FORMATS.contains (extNoDotLower p) = false) :
    convertFile fs p t opts =
      Except.error (ConvError.unsupportedFormat (extNoDotLower p)) ∧
    convertFile fs p t opts = convertFile fs2 p t opts ∧
    generateFaviconSet fs p fopts =
      Except.error (ConvError.unsupportedFormat (extNoDotLower p)) ∧
    (ConvError.unsupportedFormat (extNoDotLower p)).message =
      unsupportedHead ++ extNoDotLower p := by
  have h' : extNoDotLower p ∉ INPUT_FORMATS := by
    simpa using h
  refine ⟨?_, ?_, ?_, rfl⟩ <;>
    simp [convertFile, generateFaviconSet, h']

/-- C6 amended witness: the rejection at the concrete path
`/a/readme.txt`, whose error message names the extension. -/
theorem convertFile_unsupported_before_io_witness :
    convertFile fsTxt pTxtWitness TargetFormat.webp optsNone =
      Except.error (ConvError.unsupportedFormat (extNoDotLower pTxtWitness))
      ∧
    (ConvError.unsupportedFormat (extNoDotLower pTxtWitness)).message =
      txtErrMsg := by
  have h := convertFile_unsupported_before_io fsTxt fsPhoto pTxtWitness
    TargetFormat.webp optsNone (FaviconOpts.mk [16] FavFormat.png none)
    (by decide)
  exact ⟨h.1, h.2.2.2.trans (by decide)⟩

/-! ## C1: batch partition and isolation -/

/-- Characterisation of the `handleBatch` fold for an arbitrary
accumulator. -/
lemma handleBatch_go (runner : String → Except String String)
    (files : List String) :
    ∀ acc : List String × List (String × String),
      files.foldl
        (fun acc f =>
          match runner f with
          | Except.ok out => (acc.1 ++ [out], acc.2)
          | Except.error e => (acc.1, acc.2 ++ [(f, e)]))
        acc =
      (acc.1 ++ files.filterMap (fun f => (runner f).toOption),
       acc.2 ++ files.filterMap (fun f =>
         match runner f with
         | Except.error e => some (f, e)
         | Except.ok _ => none)) := by
  induction files with
  | nil => intro acc; simp
  | cons f rest ih =>
    intro acc
    cases h : runner f with
    | ok out =>
      simp only [List.foldl_cons, h]
      rw [ih]
      simp [h, Except.toOption]
    | error e =>
      simp only [List.foldl_cons, h]
      rw [ih]
      simp [h, Except.toOption]

/-- Characterisation of the part_000 `batch` fold. -/
lemma batchFailures_go (vrunner : String → Except String Unit)
    (files : List String) :
    ∀ acc : List (String × String),
      files.foldl
        (fun acc f =>
          match vrunner f with
          | Except.ok _ => acc
          | Except.error e => acc ++ [(f, e)])
        acc =
      acc ++ files.filterMap (fun f =>
        match vrunner f with
        | Except.error e => some (f, e)
        | Except.ok _ => none) := by
  induction files with
  | nil => intro acc; simp
  | cons f rest ih =>
    intro acc
    cases h : vrunner f with
    | ok out =>
      simp only [List.foldl_cons, h]
      rw [ih]
      simp [h]
    | error e =>
      simp only [List.foldl_cons, h]
      rw [ih]
      simp [h]

/-- The two result sequences of a batch jointly exhaust the input list. -/
lemma batch_partition_length (runner : String → Except String String)
    (files : List String) :
    (files.filterMap (fun f => (runner f).toOption)).length +
    (files.filterMap (fun f =>
      match runner f with
      | Except.error e => some (f, e)
      | Except.ok _ => none)).length = files.length := by
  induction files with
  | nil => rfl
  | cons f rest ih =>
    cases h : runner f <;>
      simp only [Except.toOption] at ih <;>
      simp [h, Except.toOption] <;>
      omega

/-- C1: the batch runner's report partitions its input. The successes
sequence consists exactly of the outputs of the files whose run returned
normally, the failures sequence exactly of the (path, message) pairs of
the files whose run threw; their lengths sum to the number of inputs, so
each input file is accounted for in exactly one of the two sequences.
Each entry is a function of that file's own run alone, so one file's
error is recorded without affecting any other file's entry, and every
error is converted into an entry instead of escaping the batch call (the
runner returns a report for every input, throwing runners included). The
part_000 `batch` variant records the same failure sequence and derives
its success count from it. -/
theorem batch_partitions (files : List String)
    (runner : String → Except String String)
    (vrunner : String → Except String Unit) :
    (handleBatch files runner).1 =
      files.filterMap (fun f => (runner f).toOption) ∧
    (handleBatch files runner).2 =
      files.filterMap (fun f =>
        match runner f with
        | Except.error e => some (f, e)
        | Except.ok _ => none) ∧
    (handleBatch files runner).1.length +
      (handleBatch files runner).2.length = files.length ∧
    (∀ f, f ∈ files → ∀ e, runner f = Except.error e →
      (f, e) ∈ (handleBatch files runner).2) ∧
    (∀ f, f ∈ files → ∀ out, runner f = Except.ok out →
      out ∈ (handleBatch files runner).1) ∧
    batchFailures files vrunner =
      files.filterMap (fun f =>
        match vrunner f with
        | Except.error e => some (f, e)
        | Except.ok _ => none) := by
  have h1 : (handleBatch files runner).1 =
      files.filterMap (fun f => (runner f).toOption) := by
    unfold handleBatch
    rw [handleBatch_go]
    simp
  have h2 : (handleBatch files runner).2 =
      files.filterMap (fun f =>
        match runner f with
        | Except.error e => some (f, e)
        | Except.ok _ => none) := by
    unfold handleBatch
    rw [handleBatch_go]
    simp
  refine ⟨h1, h2, ?_, ?_, ?_, ?_⟩
  · rw [h1, h2]
    exact batch_partition_length runner files
  · intro f hf e he
    rw [h2]
    exact List.mem_filterMap.mpr ⟨f, hf, by rw [he]⟩
  · intro f hf out hout
    rw [h1]
    exact List.mem_filterMap.mpr ⟨f, hf, by rw [hout]; rfl⟩
  · unfold batchFailures
    rw [batchFailures_go]
    simp

/-- C1 witness: a concrete three-file batch in which the middle file
throws: two successes, one failure naming the failing file, summing to
three. -/
theorem batch_partitions_witness :
    (handleBatch filesW runnerW).1.length +
      (handleBatch filesW runnerW).2.length = 3 ∧
    (pPhoto, eaccesMsg) ∈ (handleBatch filesW runnerW).2 := by
  have h := batch_partitions filesW runnerW (fun _ => Except.ok ())
  refine ⟨h.2.2.1.trans (by decide), ?_⟩
  exact h.2.2.2.1 pPhoto (by decide) eaccesMsg rfl

/-! ## C3: output path and replacement of the original -/

/-- C3: conversion targets exactly
`dir/(basename without extension).(target extension)` — a deterministic
function of the input path and the target alone — and, in the ordinary
case (decodable source, no delete or write fault, target name different
from the source name), the source file no longer exists afterwards while
the output file does. -/
theorem convert_targets_computed_path (fs : FS) (p : String)
    (t : TargetFormat) (opts : ConvOpts) (img : Image)
    (hread : fs.files p = some img)
    (hulf : fs.unlinkFaults p = false)
    (hwf : fs.writeFaults (outputPath p t) = false)
    (hext : INPUT_FORMATS.contains (extNoDotLower p) = true)
    (hne : outputPath p t ≠ p) :
    outputPath p t =
      pathJoin (dirname p) (baseNameNoExt p ++ dotStr ++ targetExtStr t) ∧
    (match convertFile fs p t opts with
     | Except.ok r =>
         r.2 = outputPath p t ∧
         (r.1.files (outputPath p t)).isSome = true ∧
         r.1.files p = none
     | Except.error _ => False) := by
  have hne' : p ≠ outputPath p t := Ne.symm hne
  have hext' : extNoDotLower p ∈ INPUT_FORMATS := by simpa using hext
  refine ⟨rfl, ?_⟩
  unfold convertFile replaceOriginal FS.decode FS.unlink FS.writeFile
  simp [hext', hread, hulf, hwf, hne, hne']

/-- C3 witness: `/pics/photo.png` → webp produces `/pics/photo.webp` in
the same directory and `/pics/photo.png` is gone afterwards. -/
theorem convert_targets_computed_path_witness :
    outputPath pPhoto TargetFormat.webp = pPhotoOut ∧
    (match convertFile fsPhoto pPhoto TargetFormat.webp optsNone with
     | Except.ok r =>
         r.2 = outputPath pPhoto TargetFormat.webp ∧
         (r.1.files (outputPath pPhoto TargetFormat.webp)).isSome = true ∧
         r.1.files pPhoto = none
     | Except.error _ => False) := by
  refine ⟨by decide, ?_⟩
  exact (convert_targets_computed_path fsPhoto pPhoto TargetFormat.webp
    optsNone imgPhoto (by decide) (by decide) (by decide) (by decide)
    (by decide)).2

/-! ## C7: resize semantics -/

/-- Dimension laws of a fit-inside, no-enlargement resize at the head of
a resize-free tail. -/
lemma resize_cons_bounds (img : Image) (mw mh : Option Nat) (c : Bool)
    (rest : List Op) (hrest : ∀ sp, Op.resize sp ∉ rest) :
    (applyOps (Op.resize (ResizeSpec.mk mw mh Fit.inside true c) :: rest)
        img).width ≤ img.width ∧
    (applyOps (Op.resize (ResizeSpec.mk mw mh Fit.inside true c) :: rest)
        img).height ≤ img.height ∧
    (∀ m, mw = some m →
      (applyOps (Op.resize (ResizeSpec.mk mw mh Fit.inside true c) :: rest)
        img).width ≤ m) ∧
    (∀ m, mh = some m →
      (applyOps (Op.resize (ResizeSpec.mk mw mh Fit.inside true c) :: rest)
        img).height ≤ m) ∧
    (∃ s : ℚ, 0 ≤ s ∧ s ≤ 1 ∧
      (applyOps (Op.resize (ResizeSpec.mk mw mh Fit.inside true c) :: rest)
        img).width = roundHalf ((img.width : ℚ) * s) ∧
      (applyOps (Op.resize (ResizeSpec.mk mw mh Fit.inside true c) :: rest)
        img).height = roundHalf ((img.height : ℚ) * s)) := by
  have hd := applyOps_dims_of_no_resize rest
    (Op.apply img (Op.resize (ResizeSpec.mk mw mh Fit.inside true c))) hrest
  have hw : (applyOps (Op.resize (ResizeSpec.mk mw mh Fit.inside true c) ::
      rest) img).width =
      roundHalf ((img.width : ℚ) *
        insideScale img.width img.height mw mh true) := hd.1
  have hh : (applyOps (Op.resize (ResizeSpec.mk mw mh Fit.inside true c) ::
      rest) img).height =
      roundHalf ((img.height : ℚ) *
        insideScale img.width img.height mw mh true) := hd.2
  have s0 := insideScale_nonneg img.width img.height mw mh
  have s1 := insideScale_le_one img.width img.height mw mh
  have hwid : (img.width : ℚ) * insideScale img.width img.height mw mh true ≤
      (img.width : ℚ) := by
    have := mul_le_mul_of_nonneg_left s1 (Nat.cast_nonneg (α := ℚ) img.width)
    simpa using this
  have hhei : (img.height : ℚ) * insideScale img.width img.height mw mh true ≤
      (img.height : ℚ) := by
    have := mul_le_mul_of_nonneg_left s1 (Nat.cast_nonneg (α := ℚ) img.height)
    simpa using this
  refine ⟨?_, ?_, ?_, ?_,
    ⟨insideScale img.width img.height mw mh true, s0, s1, hw, hh⟩⟩
  · rw [hw]
    exact roundHalf_le_nat _ _ hwid
  · rw [hh]
    exact roundHalf_le_nat _ _ hhei
  · intro m hm
    rw [hw]
    apply roundHalf_le_nat
    apply mul_le_of_le_div
    rw [hm]
    exact insideScale_le_width img.width img.height m mh
  · intro m hm
    rw [hh]
    apply roundHalf_le_nat
    apply mul_le_of_le_div
    rw [hm]
    exact insideScale_le_height img.width img.height mw m

/-- C7: when neither maxWidth nor maxHeight is effective (JS-truthy), the
pipeline contains no resize operation and the output dimensions equal the
input dimensions; when a resize box is given, the single inserted resize
is fit-inside without enlargement: the output fits each given bound,
never exceeds the original dimensions, and both axes are scaled by one
common factor at most 1. Quantified over the call-site default so it
covers both conversion variants. -/
theorem resize_fit_inside_no_enlarge (p : String) (t : TargetFormat)
    (opts : ConvOpts) (img : Image) (d : Int) :
    ((truthyN opts.maxWidth = false ∧ truthyN opts.maxHeight = false) →
      (∀ spec, Op.resize spec ∉ convertPipelineOps p t opts d) ∧
      (applyOps (convertPipelineOps p t opts d) img).width = img.width ∧
      (applyOps (convertPipelineOps p t opts d) img).height = img.height) ∧
    ((truthyN opts.maxWidth = true ∨ truthyN opts.maxHeight = true) →
      (applyOps (convertPipelineOps p t opts d) img).width ≤ img.width ∧
      (applyOps (convertPipelineOps p t opts d) img).height ≤ img.height ∧
      (∀ m, opts.maxWidth = some m →
        (applyOps (convertPipelineOps p t opts d) img).width ≤ m) ∧
      (∀ m, opts.maxHeight = some m →
        (applyOps (convertPipelineOps p t opts d) img).height ≤ m) ∧
      (∃ s : ℚ, 0 ≤ s ∧ s ≤ 1 ∧
        (applyOps (convertPipelineOps p t opts d) img).width =
          roundHalf ((img.width : ℚ) * s) ∧
        (applyOps (convertPipelineOps p t opts d) img).height =
          roundHalf ((img.height : ℚ) * s))) := by
  constructor
  · intro hfalsy
    have hcond : (truthyN opts.maxWidth || truthyN opts.maxHeight) = false :=
      by simp [hfalsy.1, hfalsy.2]
    have hnores : ∀ spec, Op.resize spec ∉ convertPipelineOps p t opts d := by
      intro spec
      unfold convertPipelineOps
      rw [hcond]
      cases t <;> cases hsvg : isSvgPath p <;> simp [hsvg]
    exact ⟨hnores, applyOps_dims_of_no_resize _ img hnores⟩
  · intro hbox
    have hcond : (truthyN opts.maxWidth || truthyN opts.maxHeight) = true :=
      by rcases hbox with h | h <;> simp [h]
    cases t with
    | webp =>
      have hops : convertPipelineOps p TargetFormat.webp opts d =
          Op.resize (ResizeSpec.mk opts.maxWidth opts.maxHeight Fit.inside
            true false) ::
          [Op.encode EncFormat.webp (usedQuality opts.quality d) none] := by
        simp [convertPipelineOps, hcond]
      rw [hops]
      exact resize_cons_bounds img opts.maxWidth opts.maxHeight false _
        (by intro sp; simp)
    | jpg =>
      have hops : convertPipelineOps p TargetFormat.jpg opts d =
          Op.resize (ResizeSpec.mk opts.maxWidth opts.maxHeight Fit.inside
            true false) ::
          (Op.encode EncFormat.jpeg (usedQuality opts.quality d) none ::
            (if isSvgPath p then [Op.flatten whiteBg] else [])) := by
        simp [convertPipelineOps, hcond]
      rw [hops]
      refine resize_cons_bounds img opts.maxWidth opts.maxHeight false _ ?_
      intro sp
      cases hsvg : isSvgPath p <;> simp [hsvg]
    | png =>
      have hops : convertPipelineOps p TargetFormat.png opts d =
          Op.resize (ResizeSpec.mk opts.maxWidth opts.maxHeight Fit.inside
            true false) ::
          [Op.encode EncFormat.png (usedQuality opts.quality d) none] := by
        simp [convertPipelineOps, hcond]
      rw [hops]
      exact resize_cons_bounds img opts.maxWidth opts.maxHeight false _
        (by intro sp; simp)

/-- C7 witness: a 100×50 image with no box keeps its dimensions; with
maxWidth 30 it lands inside the box without enlargement. -/
theorem resize_fit_inside_no_enlarge_witness :
    (applyOps (convertPipelineOps pPhoto TargetFormat.webp optsNone 80)
      imgPhoto).width = 100 ∧
    (applyOps (convertPipelineOps pPhoto TargetFormat.webp optsNone 80)
      imgPhoto).height = 50 ∧
    (applyOps (convertPipelineOps pPhoto TargetFormat.webp optsBoxW30 80)
      imgPhoto).width ≤ 30 ∧
    (applyOps (convertPipelineOps pPhoto TargetFormat.webp optsBoxW30 80)
      imgPhoto).width ≤ 100 ∧
    (applyOps (convertPipelineOps pPhoto TargetFormat.webp optsBoxW30 80)
      imgPhoto).height ≤ 50 := by
  have h1 := (resize_fit_inside_no_enlarge pPhoto TargetFormat.webp optsNone
    imgPhoto 80).1 ⟨by decide, by decide⟩
  have h2 := (resize_fit_inside_no_enlarge pPhoto TargetFormat.webp
    optsBoxW30 imgPhoto 80).2 (Or.inl (by decide))
  exact ⟨h1.2.1, h1.2.2, h2.2.2.1 30 (by decide), h2.1, h2.2.1⟩

/-! ## C4: favicon set outputs -/

/-- In both favicon formats the per-size file name carries the png
extension. -/
lemma faviconFileName_ext (fmt : FavFormat) (s : Nat) :
    faviconFileName fmt s =
      favHead ++ toString s ++ xSep ++ toString s ++ dotStr ++ pngExt := by
  cases fmt <;> rfl

/-- A per-size favicon file name is never the legacy favicon.ico name. -/
lemma faviconFileName_ne_ico (fmt : FavFormat) (s : Nat) :
    faviconFileName fmt s ≠ icoFileName := by
  have hfmt : faviconFileName fmt s =
      (favHead ++ toString s ++ xSep ++ toString s ++ dotStr) ++ pngExt := by
    cases fmt <;> rfl
  intro h
  have h2 : ((favHead ++ toString s ++ xSep ++ toString s ++ dotStr) ++
      pngExt).data.getLast? = icoFileName.data.getLast? := by
    rw [← hfmt, h]
  rw [String.data_append, List.getLast?_append] at h2
  rw [show pngExt.data.getLast? = some 'g' from rfl] at h2
  rw [show icoFileName.data.getLast? = some 'o' from rfl] at h2
  simp at h2

/-- Joining distinct file names to the same directory yields distinct
paths. -/
lemma pathJoin_ne_of_ne (dir a b : String) (h : a ≠ b) :
    pathJoin dir a ≠ pathJoin dir b := by
  intro he
  apply h
  have hd := congrArg String.data he
  simp only [pathJoin, String.data_append] at hd
  exact String.ext (List.append_cancel_left hd)

/-- The per-size loop of `generateFaviconSet`: with a decodable source
and no write faults it succeeds, keeps the fault configuration, never
removes a file, establishes each requested size file, and leaves every
other path untouched. -/
lemma writeSizes_spec (dir p : String) (fmt : FavFormat) (q : Int)
    (sizes : List Nat) :
    ∀ fs : FS,
      (∀ x, fs.writeFaults x = false) →
      (fs.files p).isSome = true →
      ∃ fs', writeSizes fs dir p fmt q sizes = Except.ok fs' ∧
        fs'.writeFaults = fs.writeFaults ∧
        (∀ r, (fs.files r).isSome = true → (fs'.files r).isSome = true) ∧
        (∀ s, s ∈ sizes →
          (fs'.files (pathJoin dir (faviconFileName fmt s))).isSome = true) ∧
        (∀ r, (∀ s, s ∈ sizes → r ≠ pathJoin dir (faviconFileName fmt s)) →
          fs'.files r = fs.files r) := by
  induction sizes with
  | nil =>
    intro fs hw hp
    exact ⟨fs, rfl, rfl, fun r h => h, by simp, fun r _ => rfl⟩
  | cons s rest ih =>
    intro fs hw hp
    obtain ⟨img, himg⟩ := Option.isSome_iff_exists.mp hp
    have hws : writeSizes fs dir p fmt q (s :: rest) =
        writeSizes
          (FS.mk
            (fun r => if r = pathJoin dir (faviconFileName fmt s) then
              some (applyOps (faviconSizeOps p fmt q s) img)
            else fs.files r)
            fs.unlinkFaults fs.writeFaults)
          dir p fmt q rest := by
      simp only [writeSizes, FS.decode, FS.writeFile]
      rw [himg]
      simp [hw (pathJoin dir (faviconFileName fmt s))]
    have hfs1w : ∀ x,
        (FS.mk
          (fun r => if r = pathJoin dir (faviconFileName fmt s) then
            some (applyOps (faviconSizeOps p fmt q s) img)
          else fs.files r)
          fs.unlinkFaults fs.writeFaults).writeFaults x = false := hw
    have hfs1p :
        ((FS.mk
          (fun r => if r = pathJoin dir (faviconFileName fmt s) then
            some (applyOps (faviconSizeOps p fmt q s) img)
          else fs.files r)
          fs.unlinkFaults fs.writeFaults).files p).isSome = true := by
      by_cases hc : p = pathJoin dir (faviconFileName fmt s) <;>
        simp [hc, himg]
    obtain ⟨fs', heq, hwf, hmono, hsizes, hother⟩ := ih _ hfs1w hfs1p
    refine ⟨fs', by rw [hws]; exact heq, hwf, ?_, ?_, ?_⟩
    · intro r hr
      apply hmono
      by_cases hc : r = pathJoin dir (faviconFileName fmt s)
      · simp [hc]
      · simp [hc, hr]
    · intro sz hsz
      rcases List.mem_cons.mp hsz with hsz | hsz
      · subst hsz
        apply hmono
        simp
      · exact hsizes sz hsz
    · intro r hr
      have h1 : fs'.files r =
          (FS.mk
            (fun x => if x = pathJoin dir (faviconFileName fmt s) then
              some (applyOps (faviconSizeOps p fmt q s) img)
            else fs.files x)
            fs.unlinkFaults fs.writeFaults).files r := by
        apply hother
        intro sz hsz
        exact hr sz (List.mem_cons_of_mem _ hsz)
      rw [h1]
      have hne : r ≠ pathJoin dir (faviconFileName fmt s) :=
        hr s (List.mem_cons_self _ _)
      simp [hne]

/-- The extra favicon.ico pass produces a 16×16 PNG-encoded surface. -/
lemma faviconIcoOps_dims (p : String) (q : Int) (img : Image) :
    (applyOps (faviconIcoOps p q) img).width = 16 ∧
    (applyOps (faviconIcoOps p q) img).height = 16 ∧
    (applyOps (faviconIcoOps p q) img).encodedAs = some EncFormat.png := by
  unfold faviconIcoOps
  cases hsvg : isSvgPath p <;> simp [hsvg, applyOps, Op.apply]

/-- C4: favicon generation with requested sizes S writes one
`favicons/favicon-{s}x{s}.png` per size s ∈ S (the extension is png for
both requested formats), additionally writes `favicons/favicon.ico`
holding a PNG-encoded 16×16 surface exactly when 16 ∈ S (otherwise that
path is untouched), and never deletes any file — in particular the
source survives. -/
theorem favicon_set_outputs (fs : FS) (p : String) (sizes : List Nat)
    (format : FavFormat) (qOpt : Option Int) (img : Image)
    (hread : fs.files p = some img)
    (hw : ∀ x, fs.writeFaults x = false)
    (hext : INPUT_FORMATS.contains (extNoDotLower p) = true) :
    (∀ f s, faviconFileName f s =
      favHead ++ toString s ++ xSep ++ toString s ++ dotStr ++ pngExt) ∧
    (match generateFaviconSet fs p (FaviconOpts.mk sizes format qOpt) with
     | Except.ok fs' =>
       (∀ s, s ∈ sizes →
         (fs'.files (pathJoin (pathJoin (dirname p) favDirName)
           (faviconFileName format s))).isSome = true) ∧
       (sizes.contains 16 = true →
         (match fs'.files (pathJoin (pathJoin (dirname p) favDirName)
             icoFileName) with
          | some b => b.width = 16 ∧ b.height = 16 ∧
              b.encodedAs = some EncFormat.png
          | none => False)) ∧
       (sizes.contains 16 = false →
         fs'.files (pathJoin (pathJoin (dirname p) favDirName) icoFileName)
           = fs.files (pathJoin (pathJoin (dirname p) favDirName)
             icoFileName)) ∧
       (∀ r, (fs.files r).isSome = true → (fs'.files r).isSome = true)
     | Except.error _ => False) := by
  refine ⟨faviconFileName_ext, ?_⟩
  unfold generateFaviconSet
  dsimp only
  rw [hext]
  rw [if_neg (by decide)]
  obtain ⟨fs1, heq, hwf, hmono, hsizes, hother⟩ :=
    writeSizes_spec (pathJoin (dirname p) favDirName) p format
      (usedQuality qOpt 90) sizes fs hw (by simp [hread])
  rw [heq]
  dsimp only
  cases h16 : sizes.contains 16 with
  | false =>
    rw [if_neg (by decide)]
    dsimp only
    refine ⟨hsizes, ?_, ?_, hmono⟩
    · intro hc
      exact absurd hc (by decide)
    · intro _
      apply hother
      intro sz hsz
      exact Ne.symm
        (pathJoin_ne_of_ne _ _ _ (faviconFileName_ne_ico format sz))
  | true =>
    rw [if_pos rfl]
    have hp1 : (fs1.files p).isSome = true := hmono p (by simp [hread])
    obtain ⟨img1, himg1⟩ := Option.isSome_iff_exists.mp hp1
    unfold FS.decode FS.writeFile
    rw [himg1]
    dsimp only
    rw [hwf, hw (pathJoin (pathJoin (dirname p) favDirName) icoFileName)]
    rw [if_neg (by decide)]
    dsimp only
    refine ⟨?_, ?_, ?_, ?_⟩
    · intro sz hsz
      by_cases hc : pathJoin (pathJoin (dirname p) favDirName)
          (faviconFileName format sz) =
          pathJoin (pathJoin (dirname p) favDirName) icoFileName <;>
        simp [hc, hsizes sz hsz]
    · intro _
      simp [faviconIcoOps_dims p (usedQuality qOpt 90) img1]
    · intro hc
      exact absurd hc (by decide)
    · intro r hr
      by_cases hc : r = pathJoin (pathJoin (dirname p) favDirName)
          icoFileName <;>
        simp [hc, hmono r hr]

/-- C4 witness: logo.svg with sizes 16, 32, 48 yields the three size
files plus favicon.ico (16×16, PNG-encoded) and the source survives. -/
theorem favicon_set_outputs_witness :
    (match generateFaviconSet fsSvg pLogoSvg
        (FaviconOpts.mk [16, 32, 48] FavFormat.png none) with
     | Except.ok fs' =>
       (∀ s, s ∈ [16, 32, 48] →
         (fs'.files (pathJoin (pathJoin (dirname pLogoSvg) favDirName)
           (faviconFileName FavFormat.png s))).isSome = true) ∧
       (match fs'.files (pathJoin (pathJoin (dirname pLogoSvg) favDirName)
           icoFileName) with
        | some b => b.width = 16 ∧ b.height = 16 ∧
            b.encodedAs = some EncFormat.png
        | none => False) ∧
       (fs'.files pLogoSvg).isSome = true
     | Except.error _ => False) := by
  have h := (favicon_set_outputs fsSvg pLogoSvg [16, 32, 48] FavFormat.png
    none imgAlpha (by decide) (fun x => rfl) (by decide)).2
  revert h
  cases generateFaviconSet fsSvg pLogoSvg
      (FaviconOpts.mk [16, 32, 48] FavFormat.png none) with
  | error e => exact id
  | ok fs' =>
    intro h
    exact ⟨h.1, h.2.1 (by decide), h.2.2.2 pLogoSvg (by decide)⟩

/-- C2 witness: with the source locked (unlink fault) and a healthy
output path, the replacement still succeeds; with a write fault it fails
with the write error. -/
theorem replace_swallows_delete_witness :
    (replaceOriginal fsLocked pPhoto pPhotoOut imgPhoto).isOk = true ∧
    replaceOriginal fsWriteFault pPhoto pPhotoOut imgPhoto =
      Except.error eaccesMsg := by
  constructor
  · exact (replace_swallows_delete fsLocked pPhoto pPhotoOut
      imgPhoto).2.2.1.mpr (by decide)
  · exact (replace_swallows_delete fsWriteFault pPhoto pPhotoOut
      imgPhoto).2.2.2 (by decide)

end ImgSmith
